import Mathlib

/-!
Verification development for the rr_cache cache-build pipeline
(`rr_cache/rr_cache.py`).  Python dictionaries are embedded as association
lists (`List (key × value)`) with Python dict semantics: assignment replaces
the value in place when the key is present and appends otherwise; lookups
return the unique value stored for a key.  Tab-separated rows are embedded as
structures or pairs of the fields the code reads.  Exceptions are embedded
with `Except`/`Option`.  Floats appearing in the code (stoichiometric
coefficients, rule scores) are embedded as rationals; the decimal strings the
parsers accept here are exactly representable so no rounding is involved.
-/

namespace RRCache

/-- Lookup in an association list: returns the value of the first (hence, for
dict-shaped lists, the unique) pair with the given key, mirroring a Python
dict read. -/
def lookupA {α : Type} : List (String × α) → String → Option α
  | [], _ => none
  | (k, v) :: t, key => if k = key then some v else lookupA t key

/-- Python dict assignment `d[k] = v`: replace the value in place when the key
is present, append a new pair otherwise. -/
def insertOW {α : Type} : List (String × α) → String → α → List (String × α)
  | [], k, v => [(k, v)]
  | (k', v') :: t, k, v =>
    if k' = k then (k, v) :: t else (k', v') :: insertOW t k v

/-- Increment the count stored for a key (1 when absent); one step of
`collections.Counter`. -/
def bump : List (String × Nat) → String → List (String × Nat)
  | [], k => [(k, 1)]
  | (k', n) :: t, k =>
    if k' = k then (k', n + 1) :: t else (k', n) :: bump t k

/-- Python `dict(Counter(l))`: multiplicity of each element, keys in first
occurrence order. -/
def counterOf (l : List String) : List (String × Nat) :=
  l.foldl bump []

/-- Python `s.split(sep)` for a single-character separator: splits on every
occurrence, keeping empty fields (`"".split(sep) == [""]`). -/
def splitOnChar (sep : Char) : List Char → List (List Char)
  | [] => [[]]
  | c :: t =>
    let r := splitOnChar sep t
    if c = sep then [] :: r
    else
      match r with
      | [] => [[c]]
      | h :: t' => (c :: h) :: t'

/-- String-level wrapper of `splitOnChar`. -/
def pySplit (sep : Char) (s : String) : List String :=
  (splitOnChar sep s.data).map (fun cs => String.mk cs)

/-- Python `"".join(l)`. -/
def joinAll (l : List String) : String :=
  l.foldl (fun a b => a ++ b) ""

/-- Numeric value of a nonempty all-digit character list, `none` otherwise. -/
def digitsToNat? (cs : List Char) : Option Nat :=
  if cs.isEmpty then none
  else if cs.all Char.isDigit then
    some (cs.foldl (fun a c => 10 * a + (c.toNat - 48)) 0)
  else none

/-- Python `float(s)` restricted to the token shapes arising in this code
base: a digit run or a digit run, a dot, and a digit run (the equation regex
and the score columns only ever produce these; sign and exponent forms never
arise). The value is exact as a rational. -/
def parseDecimal (s : String) : Option ℚ :=
  match splitOnChar '.' s.data with
  | [a] => (digitsToNat? a).map (fun n => (n : ℚ))
  | [a, b] =>
    match digitsToNat? a, digitsToNat? b with
    | some x, some y => some ((x : ℚ) + (y : ℚ) / ((10 : ℚ) ^ b.length))
    | _, _ => none
  | _ => none

/-- Python `int(s)`: optional surrounding spaces, optional sign, a digit run
(underscore grouping, accepted by Python, never arises in this data). -/
def parseInt (s : String) : Option Int :=
  let cs := (s.data.dropWhile (fun c => c = ' ')).reverse.dropWhile
    (fun c => c = ' ') |>.reverse
  match cs with
  | '-' :: rest => (digitsToNat? rest).map (fun n => -(n : Int))
  | '+' :: rest => (digitsToNat? rest).map (fun n => (n : Int))
  | _ => (digitsToNat? cs).map (fun n => (n : Int))

/-! The stoichiometry grammar of `_read_equation`
(`rr_cache.py`, lines 1556-1610). -/

/-- The `DEFAULT_STOICHIO_RESCUE` table (lines 1568-1575), verbatim: tokens
resolved to fixed coefficients before any numeric parsing is attempted. -/
def DEFAULT_STOICHIO_RESCUE : List (String × ℚ) :=
  [("4n", 4), ("3n", 3), ("2n", 2), ("n", 1),
   ("(n)", 1), ("(N)", 1), ("(2n)", 2), ("(x)", 1),
   ("N", 1), ("m", 1), ("q", 1),
   ("0.01", 1), ("0.1", 1), ("0.5", 1), ("1.5", 1),
   ("0.02", 1), ("0.2", 1),
   ("(n-1)", 0), ("(n-2)", -1)]

/-- Coefficient resolution of `_read_equation` (lines 1588-1605): first the
rescue table, then `float` conversion; `none` embeds the uncaught
`ValueError` path that makes the parser drop the reaction. -/
def resolveStoichio (tok : String) : Option ℚ :=
  match lookupA DEFAULT_STOICHIO_RESCUE tok with
  | some v => some v
  | none => parseDecimal tok

/-! Embedding of the coefficient/compound regular expression of
`_read_equation` (lines 1579-1587).  The pattern is
`(ALTS) ([\w\d]+)` -- with `@\w+` appended when the equation contains `@` --
where `ALTS` is the ordered alternation
`\(n-1\)|\d+|4n|3n|2n|n|\(n\)|\(N\)|\(2n\)|\(x\)|N|m|q|\(n\-2\)|\d+\.\d+`.
`re.findall` scans left to right, taking at each position the first
alternative whose whole-pattern continuation succeeds, then resumes after
the match. -/

/-- Word characters of the `\w` class over the ASCII data at hand. -/
def isWordChar (c : Char) : Bool :=
  c.isAlpha || c.isDigit || c = '_'

/-- Match a literal alternative at the head of the input, returning the token
and the rest. -/
def litM (lit : String) (cs : List Char) : Option (String × List Char) :=
  if lit.data.isPrefixOf cs then some (lit, cs.drop lit.length) else none

/-- Match the `\d+` alternative: the maximal digit run.  The regex engine
would also backtrack to shorter runs, but every shorter run leaves a digit
where the pattern next requires a space, so only the maximal run can complete
a match. -/
def digitsM (cs : List Char) : Option (String × List Char) :=
  let run := cs.takeWhile Char.isDigit
  if run.isEmpty then none else some (String.mk run, cs.drop run.length)

/-- Match the `\d+\.\d+` alternative: maximal digit run, a dot, maximal digit
run (shorter backtracks fail as for `digitsM`). -/
def decimalM (cs : List Char) : Option (String × List Char) :=
  let a := cs.takeWhile Char.isDigit
  if a.isEmpty then none
  else
    match cs.drop a.length with
    | '.' :: cs1 =>
      let b := cs1.takeWhile Char.isDigit
      if b.isEmpty then none
      else some (String.mk (a ++ '.' :: b), cs1.drop b.length)
    | _ => none

/-- The alternatives of the coefficient group, in the exact order of the
pattern string. -/
def coeffAlts : List (List Char → Option (String × List Char)) :=
  [litM "(n-1)", digitsM, litM "4n", litM "3n", litM "2n", litM "n",
   litM "(n)", litM "(N)", litM "(2n)", litM "(x)",
   litM "N", litM "m", litM "q", litM "(n-2)", decimalM]

/-- Match the continuation after the coefficient group: a space, the
`[\w\d]+` compound-id group, then `@\w+` when `withAt` is set (the compartment
suffix, discarded). -/
def matchRest (withAt : Bool) (cs : List Char) : Option (String × List Char) :=
  match cs with
  | ' ' :: cs1 =>
    let idRun := cs1.takeWhile isWordChar
    if idRun.isEmpty then none
    else
      let rest := cs1.drop idRun.length
      if withAt then
        match rest with
        | '@' :: cs2 =>
          let wRun := cs2.takeWhile isWordChar
          if wRun.isEmpty then none
          else some (String.mk idRun, cs2.drop wRun.length)
        | _ => none
      else some (String.mk idRun, rest)
  | _ => none

/-- Try the alternatives in order at the current position, requiring the
whole-pattern continuation to succeed (the engine falls through to the next
alternative when the continuation fails). -/
def tryAlts (withAt : Bool) (cs : List Char) :
    List (List Char → Option (String × List Char)) →
    Option (String × String × List Char)
  | [] => none
  | m :: ms =>
    match m cs with
    | some (tok, after) =>
      match matchRest withAt after with
      | some (cid, rest) => some (tok, cid, rest)
      | none => tryAlts withAt cs ms
    | none => tryAlts withAt cs ms

/-- Scan of `re.findall`: attempt a match at each position, emit the two
groups and resume after the match, else advance one character.  The fuel is
the input length; every step consumes at least one character. -/
def findAllTokens (withAt : Bool) : Nat → List Char → List (String × String)
  | 0, _ => []
  | _, [] => []
  | fuel + 1, c :: cs =>
    match tryAlts withAt (c :: cs) coeffAlts with
    | some (tok, cid, rest) => (tok, cid) :: findAllTokens withAt fuel rest
    | none => findAllTokens withAt fuel cs

/-- One parsed equation side: compound id to coefficient, Python dict
semantics (a repeated compound id overwrites). -/
def parseSide (withAt : Bool) (s : String) : Option (List (String × ℚ)) :=
  (findAllTokens withAt s.data.length s.data).foldlM
    (fun acc tc =>
      match resolveStoichio tc.1 with
      | some v => some (insertOW acc tc.2 v)
      | none => none)
    []

/-- A parsed reaction equation: left and right side mappings. -/
structure Equation where
  left : List (String × ℚ)
  right : List (String × ℚ)
deriving DecidableEq, Repr

/-- Embedding of `_read_equation` (lines 1556-1610): reject unless splitting
on `=` yields exactly two sides, then tokenize each side with the regex
(chosen by whether the whole equation contains `@`) and resolve every
coefficient token; an unresolvable coefficient aborts the whole equation
(`return None`).  The reaction id argument is used by the code only for the
log message. -/
def readEquation (eq : String) (_rxnId : String) : Option Equation :=
  if (pySplit '=' eq).length = 2 then
    let withAt := eq.data.contains '@'
    match parseSide withAt ((pySplit '=' eq).getD 0 ""),
        parseSide withAt ((pySplit '=' eq).getD 1 "") with
    | some l, some r => some ⟨l, r⟩
    | _, _ => none
  else none

/-- Embedding of `_read_direction` (lines 1536-1553): `int` conversion,
`none` on `ValueError` (the caller then skips the row). -/
def readDirection (dir : String) : Option Int :=
  parseInt dir

/-- One row of the legacy `rxn_recipes.tsv` table, the fields
`_m_template_reactions_legacy` reads. -/
structure TRow where
  rid : String
  eq : String
  dir : String
  mainLeft : String
  mainRight : String
deriving DecidableEq, Repr

/-- A template-reaction record of the legacy parser. -/
structure TemplateRxn where
  left : List (String × ℚ)
  right : List (String × ℚ)
  direction : Int
  main_left : List String
  main_right : List String
deriving DecidableEq, Repr

/-- One loop iteration of `_m_template_reactions_legacy` (lines 1504-1531):
skip the row when the equation or the direction fails to parse, otherwise
store the record under the reaction id. -/
def stepTemplate (acc : List (String × TemplateRxn)) (row : TRow) :
    List (String × TemplateRxn) :=
  match readEquation row.eq row.rid with
  | none => acc
  | some rxn =>
    match readDirection row.dir with
    | none => acc
    | some d =>
      insertOW acc row.rid
        ⟨rxn.left, rxn.right, d, pySplit ',' row.mainLeft,
          pySplit ',' row.mainRight⟩

/-- Embedding of `_m_template_reactions_legacy` (lines 1492-1533) over the
already-read rows (the `os_path.exists` guard and gzip reading are the file
layer, abstracted away). -/
def mTemplateReactionsLegacy (rows : List TRow) : List (String × TemplateRxn) :=
  rows.foldl stepTemplate []

/-! Embedding of `_m_rr_reactions` (lines 1356-1390), the new-schema
rule-links table. -/

/-- One row of the new-schema rules table, the fields `_m_rr_reactions`
reads. -/
structure RRRow where
  template_id : String
  reaction_id : String
  direction : String
  score : String
  left_ids : String
  right_ids : String
  left_excluded_ids : String
  right_excluded_ids : String
deriving DecidableEq, Repr

/-- A stored rule-reaction link (the value dict built at lines 1373-1383). -/
structure RRLink where
  rule_id : String
  rule_score : ℚ
  reac_id : String
  subs_id : String
  rel_direction : Int
  left : List (String × Nat)
  right : List (String × Nat)
  left_excluded : List String
  right_excluded : List String
deriving DecidableEq, Repr

/-- Numeric direction of a row: `1 if row[DIRECTION] == L2R else -1`
(line 1378). -/
def dirVal (row : RRRow) : Int :=
  if row.direction = "L2R" then 1 else -1

/-- The link built from a row first seen for its (rule, reaction) pair, with
the already-parsed score (lines 1371-1383). -/
def mkRRLink (row : RRRow) (score : ℚ) : RRLink :=
  { rule_id := row.template_id
    rule_score := score
    reac_id := row.reaction_id
    subs_id := row.left_ids
    rel_direction := dirVal row
    left := [(row.left_ids, 1)]
    right := counterOf (pySplit '.' row.right_ids)
    left_excluded :=
      if row.left_excluded_ids = "" then [] else pySplit '.' row.left_excluded_ids
    right_excluded :=
      if row.right_excluded_ids = "" then [] else pySplit '.' row.right_excluded_ids }

/-- The two-level map rule id -> reaction id -> link. -/
abbrev RRState := List (String × List (String × RRLink))

/-- One loop iteration of `_m_rr_reactions`: ensure the outer key, then either
create the link (where `float(row[SCORE])` can raise `ValueError`,
embedded as `Except.error`) or, for a duplicate (rule, reaction) pair, degrade
`rel_direction` to 0 when the stored direction is nonzero and the new row
conflicts with it (lines 1368-1388); no other field of the stored link is
touched. -/
def stepRR (s : RRState) (row : RRRow) : Except Unit RRState :=
  match lookupA ((lookupA s row.template_id).getD []) row.reaction_id with
  | none =>
    match parseDecimal row.score with
    | none => .error ()
    | some q =>
      .ok (insertOW s row.template_id
        (insertOW ((lookupA s row.template_id).getD [])
          row.reaction_id (mkRRLink row q)))
  | some l =>
    if l.rel_direction ≠ 0 ∧ dirVal row ≠ l.rel_direction then
      .ok (insertOW s row.template_id
        (insertOW ((lookupA s row.template_id).getD [])
          row.reaction_id { l with rel_direction := 0 }))
    else .ok s

/-- The row loop of `_m_rr_reactions`: left-to-right, aborting on the first
uncaught exception. -/
def rrFold : List RRRow → RRState → Except Unit RRState
  | [], s => .ok s
  | row :: rest, s =>
    match stepRR s row with
    | .error e => .error e
    | .ok s' => rrFold rest s'

/-- Embedding of `_m_rr_reactions` over the already-read rows (the
`os_path.exists` guard and gzip reading are the file layer, abstracted
away). -/
def mRRReactions (rows : List RRRow) : Except Unit RRState :=
  rrFold rows []

/-- Lookup across both levels of the rule-links map. -/
def lookup2 (s : RRState) (t r : String) : Option RRLink :=
  (lookupA s t).bind (fun inner => lookupA inner r)

/-! Embedding of the cross-reference parsers `_deprecatedMNX`
(lines 1026-1036) and `_m_mnxm_xref` (lines 1255-1288).  A row is the
`(row[0], row[1])` fields read by the code. -/

/-- Contiguous-substring test, the semantics of the Python `in` operator on
strings. -/
def containsSub (needle : List Char) : List Char → Bool
  | [] => needle.isPrefixOf []
  | c :: t => needle.isPrefixOf (c :: t) || containsSub needle t

/-- Comment test `row[0][0] == '#'` (Python would raise `IndexError` on an
empty first field; such rows do not occur in the data and are mapped to
`false`). -/
def isComment (s : String) : Bool :=
  match s.data with
  | [] => false
  | c :: _ => c = '#'

/-- Database name of a cross-reference key: bare ids default to `mnx`, the
`deprecated` namespace folds into `mnx` (lines 1268-1275). -/
def dbNameOf (s : String) : String :=
  let parts := pySplit ':' s
  if parts.length = 1 then "mnx"
  else if parts.headD "" = "deprecated" then "mnx"
  else parts.headD ""

/-- Foreign id of a cross-reference key: the key itself when bare, otherwise
the concatenation of the fields after the first colon
(`''.join(row[0].split(':')[1:])`). -/
def dbIdOf (s : String) : String :=
  let parts := pySplit ':' s
  if parts.length = 1 then s else joinAll (parts.drop 1)

/-- Value stored in the single `cid_xref` dictionary: forward entries map a
database name to the list of foreign ids, reverse entries map a foreign id to
the internal id (the Python code stores a list or a string in the same inner
dict position). -/
inductive XEntry where
  | fwd (ids : List String)
  | rev (id : String)
deriving DecidableEq, Repr

/-- The single dictionary built by `_m_mnxm_xref`. -/
abbrev Xref := List (String × List (String × XEntry))

/-- The state after `if mnxm not in cid_xref: cid_xref[mnxm] = \x7b\x7d`
(lines 1277-1278): ensure the internal-id key. -/
def xrefAcc1 (acc : Xref) (mnx : String) : Xref :=
  if (lookupA acc mnx).isNone then insertOW acc mnx [] else acc

/-- The inner dict of the internal id after `if dbName not in cid_xref[mnxm]:
cid_xref[mnxm][dbName] = []` (lines 1279-1280). -/
def xrefInner1 (acc1 : Xref) (mnx dbName : String) :
    List (String × XEntry) :=
  let inner := (lookupA acc1 mnx).getD []
  if (lookupA inner dbName).isNone then insertOW inner dbName (.fwd [])
  else inner

/-- The common tail of the loop body: store the updated inner dict of the
internal id, then the reverse entry `cid_xref[dbName][dbId] = mnx` when the
foreign id is not yet a key (lines 1283-1287). -/
def xrefProceed (acc1 : Xref) (mnx dbName dbId : String)
    (inner2 : List (String × XEntry)) : Xref :=
  let acc2 := insertOW acc1 mnx inner2
  let acc3 :=
    if (lookupA acc2 dbName).isNone then insertOW acc2 dbName [] else acc2
  let dinner := (lookupA acc3 dbName).getD []
  let dinner1 :=
    if (lookupA dinner dbId).isNone then insertOW dinner dbId (.rev mnx)
    else dinner
  insertOW acc3 dbName dinner1

/-- One loop iteration of `_m_mnxm_xref` (lines 1264-1287): record the foreign
id under `cid_xref[mnx][dbName]` (appending when absent from the list) and the
reverse entry `cid_xref[dbName][dbId] = mnx` when absent.  When the inner slot
holds a reverse string where the code expects a list, Python would perform a
substring `in` test and raise `AttributeError` on `.append`; that path is
embedded as `Except.error` (unchanged when the substring test short-circuits
the append). -/
def stepXref (acc : Xref) (row : String × String) : Except Unit Xref :=
  if isComment row.1 then .ok acc
  else
    let mnx := row.2
    let dbName := dbNameOf row.1
    let dbId := dbIdOf row.1
    let acc1 := xrefAcc1 acc mnx
    let inner1 := xrefInner1 acc1 mnx dbName
    match lookupA inner1 dbName with
    | some (.fwd ids) =>
      .ok (xrefProceed acc1 mnx dbName dbId
        (if dbId ∈ ids then inner1
          else insertOW inner1 dbName (.fwd (ids ++ [dbId]))))
    | some (.rev s) =>
      -- the slot holds a reverse string: `dbId not in s` is a substring test;
      -- when it passes, `.append` raises AttributeError
      if containsSub dbId.data s.data then
        .ok (xrefProceed acc1 mnx dbName dbId inner1)
      else .error ()
    | none => .error () -- unreachable: the key was just ensured

/-- The row loop of `_m_mnxm_xref`, left-to-right, aborting on the first
uncaught exception. -/
def xrefFold : List (String × String) → Xref → Except Unit Xref
  | [], acc => .ok acc
  | row :: rest, acc =>
    match stepXref acc row with
    | .error e => .error e
    | .ok acc' => xrefFold rest acc'

/-- Embedding of `_m_mnxm_xref` over the already-read rows. -/
def mMnxmXref (rows : List (String × String)) : Except Unit Xref :=
  xrefFold rows []

/-- Embedding of `_deprecatedMNX` (lines 1026-1036): rows whose first field
has the form `deprecated:<old>` map `<old>` to the second field; all other
rows and comment rows are ignored.  (Python would raise `IndexError` on a
first field equal to the bare word `deprecated`; such rows do not occur and
are mapped through `getD`.) -/
def deprecatedMNX (rows : List (String × String)) : List (String × String) :=
  rows.foldl
    (fun acc row =>
      if isComment row.1 then acc
      else
        let parts := pySplit ':' row.1
        if parts.headD "" = "deprecated" then
          insertOW acc (parts.getD 1 "") row.2
        else acc)
    []

/-! Embedding of the artifact serializer `_store_cache_to_file`
(lines 967-985). -/

/-- Insert a pair into a list sorted by key (the comparison step of
`json.dumps(sort_keys=True)`). -/
def insertSorted (p : String × String) :
    List (String × String) → List (String × String)
  | [] => [p]
  | q :: t => if p.1 ≤ q.1 then p :: q :: t else q :: insertSorted p t

/-- Sort the key-value pairs of a dict by key. -/
def sortByKey (l : List (String × String)) : List (String × String) :=
  l.foldr insertSorted []

/-- Embedding of `json_dumps(data, sort_keys=True, separators=(",", ":"))`
for a dict whose values are abstracted as already-serialized strings: keys
sorted, no incidental whitespace. -/
def jsonDumpsSorted (data : List (String × String)) : String :=
  "\x7b" ++
    String.intercalate ","
      ((sortByKey data).map (fun kv => "\"" ++ kv.1 ++ "\":" ++ kv.2)) ++
    "\x7d"

/-- Embedding of plain `json_dump(data, fp)` (no key sorting, default
separators): the dict in insertion order. -/
def jsonDumpPlain (data : List (String × String)) : String :=
  "\x7b" ++
    String.intercalate ", "
      (data.map (fun kv => "\"" ++ kv.1 ++ "\": " ++ kv.2)) ++
    "\x7d"

/-- An artifact file as written: a gzip member records the header mtime
alongside the payload bytes. -/
inductive Artifact where
  | gz (mtime : Nat) (payload : String)
  | plain (payload : String)
deriving DecidableEq, Repr

/-- Suffix test for the filename dispatch. -/
def endsWithStr (suf s : String) : Bool :=
  suf.data.isSuffixOf s.data

/-- Embedding of `_store_cache_to_file` (lines 967-985).  `now` is the
environment clock that `GzipFile` would stamp into the gzip header by
default; the code passes `mtime=0` instead (line 978), so `now` is unused on
the gzip path.  Compressed artifacts are dumped with sorted keys and fixed
separators (line 974); plain artifacts use the default `json_dump`. -/
def storeCacheToFile (filename : String) (_now : Nat)
    (data : List (String × String)) : Artifact :=
  if endsWithStr ".gz" filename || endsWithStr ".zip" filename then
    .gz 0 (jsonDumpsSorted data)
  else
    .plain (jsonDumpPlain data)

/-! Embedding of the artifact fingerprint gate on the `Load` path
(`Load`, lines 178-227; `_check_or_download_cache_to_disk`, lines 237-292;
`_check_or_load_cache`, lines 840-859), for a single requested attribute.
The on-disk artifact is summarized by whether the file exists, whether
`check_sha` matches the registry fingerprint, and the data its bytes
deserialize to (`none` embeds bytes that fail JSON parsing). -/

/-- Disk state of one attribute artifact plus its configured source URL. -/
structure ArtifactState where
  onDisk : Bool
  shaOk : Bool
  content : Option String
  url : String
deriving DecidableEq, Repr

/-- Observable side effects of the load pipeline. -/
inductive LoadAction where
  | warnSha
  | download
  | build
deriving DecidableEq, Repr

/-- Embedding of the per-attribute body of `_check_or_download_cache_to_disk`
(lines 247-284): an existing file with a matching fingerprint is kept; an
existing file with a mismatching fingerprint only produces a warning (the
`raise FileNotFoundError` at line 266 is commented out), so no download
happens; a missing file is downloaded unless the URL is empty, in which case
`requests.exceptions.MissingSchema` is raised (lines 276-279). -/
def checkOrDownloadCacheToDisk (st : ArtifactState) :
    Except Unit (List LoadAction) :=
  if st.onDisk then
    if st.shaOk then .ok []
    else .ok [.warnSha]
  else if st.url = "" then .error ()
  else .ok [.download]

/-- Outcome of `Load` for the attribute: the in-memory value handed to the
caller, or the uncaught `ValueError` from `json.load` on undecodable bytes
(not in the exception list at lines 222-225). -/
inductive LoadOutcome where
  | loaded (d : String)
  | jsonError
deriving DecidableEq, Repr

/-- Embedding of `Load` (lines 178-227) for one attribute: optionally run the
download check (its `MissingSchema` is caught and only logged, lines
217-218), then `_check_or_load_cache` deserializes the artifact with no
fingerprint check (lines 846-855); only a missing file (`FileNotFoundError`)
falls back to `Build` followed by a reload.  `remote` is the content a
download would place on disk, `buildResult` the content a local build would
produce. -/
def loadOne (st : ArtifactState) (remote : String) (buildResult : String)
    (doNotDwnlCache : Bool) : List LoadAction × LoadOutcome :=
  let step1 : List LoadAction × ArtifactState :=
    if doNotDwnlCache then ([], st)
    else
      match checkOrDownloadCacheToDisk st with
      | .error _ => ([], st)
      | .ok acts =>
        (acts,
          if acts.contains .download then
            { st with onDisk := true, content := some remote }
          else st)
  let acts := step1.1
  let st1 := step1.2
  if st1.onDisk then
    match st1.content with
    | some d => (acts, .loaded d)
    | none => (acts, .jsonError)
  else
    (acts ++ [.build], .loaded buildResult)

/-! Embedding of the artifact-reuse decisions of the `Build` generators
(`_gen_cid_xref`, lines 612-646; `_gen_template_reactions`, lines 787-829),
as a function of whether the artifact file exists and verifies. -/

/-- Observable effects of one generator. -/
inductive GenEffect where
  | loadArtifact
  | parseRaw
  | writeArtifact
deriving DecidableEq, Repr

/-- Effect trace of `_gen_cid_xref`: with an existing, fingerprint-valid
artifact the generator only loads it back (lines 625-630); otherwise it
parses `chem_xref.tsv` and writes the artifact (lines 635-641). -/
def genCidXref (onDisk shaOk : Bool) : List GenEffect :=
  if onDisk && shaOk then [.loadArtifact]
  else [.parseRaw, .writeArtifact]

/-- Effect trace of `_gen_template_reactions`: the exists-and-verifies skip
check is commented out (lines 803-808), so the generator parses the raw
recipes and rewrites the artifact unconditionally (lines 809-827). -/
def genTemplateReactions (_onDisk _shaOk : Bool) : List GenEffect :=
  [.parseRaw, .writeArtifact]

/-! Embedding of the raw-input fetcher `__download_input_cache`
(lines 911-936). -/

/-- Observable effects of the raw-input fetcher. -/
inductive DLAction where
  | logErrorEmptyUrl
  | request (target : String)
deriving DecidableEq, Repr

/-- Effect trace of `__download_input_cache`: an empty URL only logs an error
(lines 928-929) and control falls through to the unconditional
`download(url+file, ...)` call (line 936). -/
def downloadInputCachePrivate (url file : String) : List DLAction :=
  (if url = "" then [.logErrorEmptyUrl] else []) ++ [.request (url ++ file)]

/-! Derived notions used to state properties of the rule-links parser. -/

/-- Row carries the given (rule, reaction) pair. -/
def isPair (t r : String) (row : RRRow) : Bool :=
  row.template_id = t && row.reaction_id = r

/-- The first input row carrying the given (rule, reaction) pair. -/
def firstPairRow (rows : List RRRow) (t r : String) : Option RRRow :=
  rows.find? (isPair t r)

/-- A link with its direction field replaced: `withDir l d` agrees with `l`
on every field except `rel_direction`. -/
def withDir (l : RRLink) (d : Int) : RRLink :=
  { l with rel_direction := d }

/-- The stored direction for a pair, when present. -/
def dirOf (s : RRState) (t r : String) : Option Int :=
  (lookup2 s t r).map (fun l => l.rel_direction)

/-- Evolution of the stored direction when a row with the pair is processed:
a fresh pair records the row direction; a duplicate degrades a nonzero
conflicting direction to 0 and otherwise leaves it unchanged. -/
def dstep (c : Option Int) (d : Int) : Option Int :=
  some (match c with
    | none => d
    | some c' => if c' ≠ 0 ∧ d ≠ c' then 0 else c')

/-- Directions of the input rows carrying the given pair, in order. -/
def pairDirs (rows : List RRRow) (t r : String) : List Int :=
  (rows.filter (isPair t r)).map dirVal

/-! General lemmas about the association-list dictionary operations. -/

theorem lookupA_insertOW {α : Type} (m : List (String × α)) (k : String)
    (v : α) (k' : String) :
    lookupA (insertOW m k v) k' = if k = k' then some v else lookupA m k' := by
  induction m with
  | nil =>
    simp only [insertOW, lookupA]
  | cons p t ih =>
    obtain ⟨pk, pv⟩ := p
    by_cases hpk : pk = k
    · subst hpk
      simp only [insertOW, if_pos rfl, lookupA]
      by_cases hk' : pk = k'
      · subst hk'
        simp
      · simp [hk']
    · simp only [insertOW, if_neg hpk, lookupA]
      by_cases hk' : pk = k'
      · subst hk'
        have : ¬ k = pk := fun h => hpk h.symm
        simp [this]
      · simp [hk', ih]

theorem lookupA_insertOW_same {α : Type} (m : List (String × α)) (k : String)
    (v : α) : lookupA (insertOW m k v) k = some v := by
  simp [lookupA_insertOW]

theorem lookupA_insertOW_ne {α : Type} (m : List (String × α)) (k : String)
    (v : α) (k' : String) (h : k ≠ k') :
    lookupA (insertOW m k v) k' = lookupA m k' := by
  simp [lookupA_insertOW, h]

theorem lookupA_insertOW_isSome {α : Type} (m : List (String × α)) (k : String)
    (v : α) (k' : String) (h : (lookupA m k').isSome) :
    (lookupA (insertOW m k v) k').isSome := by
  rw [lookupA_insertOW]
  by_cases hk : k = k' <;> simp [hk, h]

/-! Lemmas about the key sort used by the serializer model. -/

/-- Key order on dict pairs. -/
def keyle (p q : String × String) : Prop := p.1 ≤ q.1

/-- Strict key order on dict pairs. -/
def keylt (p q : String × String) : Prop := p.1 < q.1

instance : IsAntisymm (String × String) keylt :=
  ⟨fun _ _ h1 h2 => absurd (lt_trans h1 h2) (lt_irrefl _)⟩

theorem insertSorted_perm (p : String × String) (l : List (String × String)) :
    List.Perm (insertSorted p l) (p :: l) := by
  induction l with
  | nil => simp [insertSorted]
  | cons q t ih =>
    by_cases h : p.1 ≤ q.1
    · simp [insertSorted, h]
    · simp only [insertSorted, if_neg h]
      exact List.Perm.trans (ih.cons q) (List.Perm.swap p q t)

theorem mem_insertSorted (p b : String × String) (l : List (String × String)) :
    b ∈ insertSorted p l ↔ b = p ∨ b ∈ l := by
  rw [(insertSorted_perm p l).mem_iff]
  simp

theorem sorted_insertSorted (p : String × String) (l : List (String × String))
    (h : l.Sorted keyle) : (insertSorted p l).Sorted keyle := by
  induction l with
  | nil => simp [insertSorted, List.Sorted]
  | cons q t ih =>
    rw [List.sorted_cons] at h
    obtain ⟨hq, ht⟩ := h
    by_cases hle : p.1 ≤ q.1
    · simp only [insertSorted, if_pos hle]
      rw [List.sorted_cons]
      refine ⟨?_, ?_⟩
      · intro b hb
        rcases List.mem_cons.mp hb with hb | hb
        · subst hb; exact hle
        · exact le_trans hle (hq b hb)
      · rw [List.sorted_cons]; exact ⟨hq, ht⟩
    · simp only [insertSorted, if_neg hle]
      rw [List.sorted_cons]
      refine ⟨?_, ih ht⟩
      intro b hb
      rcases (mem_insertSorted p b t).mp hb with hb | hb
      · subst hb
        exact le_of_not_le hle
      · exact hq b hb

theorem sortByKey_perm (l : List (String × String)) : List.Perm (sortByKey l) l := by
  induction l with
  | nil => simp [sortByKey]
  | cons p t ih =>
    exact List.Perm.trans (insertSorted_perm p (sortByKey t)) (ih.cons p)

theorem sorted_sortByKey (l : List (String × String)) :
    (sortByKey l).Sorted keyle := by
  induction l with
  | nil => simp [sortByKey, List.Sorted]
  | cons p t ih => exact sorted_insertSorted p (sortByKey t) ih

theorem sorted_strict_of_nodup (l : List (String × String))
    (hs : l.Sorted keyle) (hn : (l.map Prod.fst).Nodup) :
    l.Sorted keylt := by
  have hne : l.Pairwise (fun p q : String × String => p.1 ≠ q.1) := by
    rw [List.Nodup, List.pairwise_map] at hn
    exact hn
  exact (hs.and hne).imp (fun h => lt_of_le_of_ne h.1 h.2)

theorem sortByKey_eq_of_perm (l1 l2 : List (String × String))
    (hp : List.Perm l1 l2) (hn : (l1.map Prod.fst).Nodup) :
    sortByKey l1 = sortByKey l2 := by
  have hn2 : (l2.map Prod.fst).Nodup := ((hp.map Prod.fst).nodup_iff).mp hn
  have hperm : List.Perm (sortByKey l1) (sortByKey l2) :=
    ((sortByKey_perm l1).trans hp).trans (sortByKey_perm l2).symm
  have hs1 : (sortByKey l1).Sorted keylt :=
    sorted_strict_of_nodup _ (sorted_sortByKey l1)
      (((sortByKey_perm l1).map Prod.fst).nodup_iff.mpr hn)
  have hs2 : (sortByKey l2).Sorted keylt :=
    sorted_strict_of_nodup _ (sorted_sortByKey l2)
      (((sortByKey_perm l2).map Prod.fst).nodup_iff.mpr hn2)
  exact List.eq_of_perm_of_sorted hperm hs1 hs2

/-! Claim C1: the fingerprint gate on Load. -/

/-- Claim C1, counterexample.  The claim states that an artifact whose bytes
no longer match the registry fingerprint is rebuilt or re-fetched by the next
Load.  In the state "artifact file on disk, fingerprint mismatching, bytes
deserializing to CORRUPT, source URL configured", Load merely warns and hands
the corrupt deserialized data to the caller: no download and no build action
occurs, refuting the claim. -/
theorem load_fingerprint_gate_cex :
    loadOne ⟨true, false, some "CORRUPT", "http://host/"⟩ "GOOD" "GOOD" false
      = ([LoadAction.warnSha], LoadOutcome.loaded "CORRUPT")
    ∧ "CORRUPT" ≠ "GOOD" := by
  exact ⟨by decide, by decide⟩

/-- Claim C1, amended: whenever the artifact file exists on disk — whether or
not its fingerprint matches — Load deserializes and returns the on-disk data
verbatim and performs neither a download nor a rebuild; a fingerprint
mismatch only produces a warning.  (Download happens only when the file is
absent; rebuild only when loading raises a caught error.) -/
theorem load_existing_artifact_returned_verbatim
    (st : ArtifactState) (remote buildResult d : String) (dnd : Bool)
    (hdisk : st.onDisk = true) (hcontent : st.content = some d) :
    (loadOne st remote buildResult dnd).2 = LoadOutcome.loaded d
    ∧ LoadAction.download ∉ (loadOne st remote buildResult dnd).1
    ∧ LoadAction.build ∉ (loadOne st remote buildResult dnd).1 := by
  obtain ⟨od, sha, cont, url⟩ := st
  simp only at hdisk hcontent
  subst hdisk hcontent
  cases dnd <;> cases sha <;>
    simp [loadOne, checkOrDownloadCacheToDisk]

/-- Witness for the amended C1 theorem at a concrete corrupt state. -/
theorem load_existing_artifact_returned_verbatim_witness :
    (loadOne ⟨true, false, some "OLD", "http://host/"⟩ "NEW" "NEW" false).2
      = LoadOutcome.loaded "OLD"
    ∧ LoadAction.download
        ∉ (loadOne ⟨true, false, some "OLD", "http://host/"⟩ "NEW" "NEW" false).1
    ∧ LoadAction.build
        ∉ (loadOne ⟨true, false, some "OLD", "http://host/"⟩ "NEW" "NEW" false).1 :=
  load_existing_artifact_returned_verbatim
    ⟨true, false, some "OLD", "http://host/"⟩ "NEW" "NEW" "OLD" false rfl rfl

/-! Claim C2: the stoichiometric-coefficient rescue table. -/

/-- Claim C2, counterexample.  The claim states that the numeric string token
"0.5" resolves to the coefficient 0.5.  In the code the rescue table is
consulted before numeric conversion and maps the literal "0.5" to 1
(line 1572), so the token resolves to 1, not to one half. -/
theorem stoichio_token_half_cex :
    resolveStoichio "0.5" = some 1
    ∧ resolveStoichio "0.5" ≠ some (1 / 2 : ℚ)
    ∧ (1 : ℚ) ≠ 1 / 2 := by
  have h1 : resolveStoichio "0.5" = some 1 := by decide
  have hne : (1 : ℚ) ≠ 1 / 2 := by norm_num
  refine ⟨h1, ?_, hne⟩
  rw [h1]
  intro hc
  exact hne (Option.some.inj hc)

/-- Claim C2, amended: the tokens "n", "2n", "(n-1)", "(n-2)" and the numeric
string "3" resolve to 1, 2, 0, -1 and 3 as claimed, but "0.5" is itself a key
of the rescue table and resolves to 1 (numeric parsing is never reached for
it).  The last conjunct shows the behavior end to end through the equation
parser: the right-hand compound of "1 A = 0.5 B" is stored with coefficient
1. -/
theorem stoichio_rescue_amended :
    resolveStoichio "n" = some 1
    ∧ resolveStoichio "2n" = some 2
    ∧ resolveStoichio "(n-1)" = some 0
    ∧ resolveStoichio "(n-2)" = some (-1)
    ∧ resolveStoichio "3" = some 3
    ∧ resolveStoichio "0.5" = some 1
    ∧ readEquation "1 A = 0.5 B" "RX" = some ⟨[("A", 1)], [("B", 1)]⟩ := by
  refine ⟨by decide, by decide, by decide, by decide, by decide, by decide,
    by decide⟩

/-! Claim C3: artifact reuse by the Build generators. -/

/-- Claim C3, counterexample.  The claim states that every Build generator
skips when its artifact exists and verifies.  `_gen_template_reactions` has
its skip check commented out: even with an existing, fingerprint-valid
artifact it re-parses the raw inputs and rewrites the artifact. -/
theorem template_reactions_rebuild_cex :
    genTemplateReactions true true = [GenEffect.parseRaw, GenEffect.writeArtifact]
    ∧ GenEffect.parseRaw ∈ genTemplateReactions true true
    ∧ GenEffect.writeArtifact ∈ genTemplateReactions true true
    ∧ genTemplateReactions true true ≠ genCidXref true true := by
  exact ⟨by decide, by decide, by decide, by decide⟩

/-- Claim C3, amended: `_gen_cid_xref` skips as claimed — with an existing
verifying artifact it only loads the artifact back, neither parsing raw
inputs nor rewriting — but `_gen_template_reactions` re-parses and rewrites
unconditionally, its verification check being disabled in the source. -/
theorem build_skip_amended :
    genCidXref true true = [GenEffect.loadArtifact]
    ∧ GenEffect.parseRaw ∉ genCidXref true true
    ∧ GenEffect.writeArtifact ∉ genCidXref true true
    ∧ (∀ onDisk shaOk : Bool,
        genTemplateReactions onDisk shaOk
          = [GenEffect.parseRaw, GenEffect.writeArtifact]) := by
  refine ⟨by decide, by decide, by decide, by decide⟩

/-! Claim C5: empty source URL in the input fetcher. -/

/-- Claim C5, counterexample.  The claim states that the raw-input fetcher
fails fast on an empty URL without attempting a request.
`__download_input_cache` only logs an error and then issues the download
request anyway (with the bare file name as target), raising nothing. -/
theorem input_fetcher_empty_url_cex :
    downloadInputCachePrivate "" "chem_xref.tsv"
      = [DLAction.logErrorEmptyUrl, DLAction.request "chem_xref.tsv"]
    ∧ DLAction.request "chem_xref.tsv"
        ∈ downloadInputCachePrivate "" "chem_xref.tsv" := by
  exact ⟨by decide, by decide⟩

/-- Claim C5, amended: the raw-input fetcher always attempts the download
request `download(url+file, ...)`, also when the URL is empty (where it
additionally logs an error); the fail-fast missing-source behavior exists
only in the cache-artifact downloader `_check_or_download_cache_to_disk`,
which raises `MissingSchema` for an absent artifact with an empty URL,
attempting no request. -/
theorem empty_url_failfast_amended
    (url file : String) (st : ArtifactState)
    (hdisk : st.onDisk = false) (hurl : st.url = "") :
    DLAction.request (url ++ file) ∈ downloadInputCachePrivate url file
    ∧ checkOrDownloadCacheToDisk st = .error () := by
  constructor
  · simp [downloadInputCachePrivate]
  · simp [checkOrDownloadCacheToDisk, hdisk, hurl]

/-- Witness for the amended C5 theorem at a concrete state. -/
theorem empty_url_failfast_amended_witness :
    DLAction.request ("" ++ "chem_xref.tsv")
      ∈ downloadInputCachePrivate "" "chem_xref.tsv"
    ∧ checkOrDownloadCacheToDisk ⟨false, false, none, ""⟩ = .error () :=
  empty_url_failfast_amended "" "chem_xref.tsv" ⟨false, false, none, ""⟩ rfl rfl

/-! Claim C6: deterministic serialization of gzip-compressed artifacts. -/

/-- Claim C6, confirmed for the gzip path: the bytes written by
`_store_cache_to_file` for a compressed artifact depend only on the dict
contents — not on the build clock (the gzip header mtime is pinned to 0) and
not on the insertion order of the dict (keys are sorted, separators fixed).
Two builds producing the same key-value data therefore write byte-identical
artifacts. -/
theorem store_gz_deterministic
    (fn : String) (t1 t2 : Nat) (d1 d2 : List (String × String))
    (hfn : endsWithStr ".gz" fn = true)
    (hperm : List.Perm d1 d2)
    (hnodup : (d1.map Prod.fst).Nodup) :
    storeCacheToFile fn t1 d1 = storeCacheToFile fn t2 d2 := by
  simp only [storeCacheToFile, hfn, Bool.true_or, if_pos]
  have : sortByKey d1 = sortByKey d2 := sortByKey_eq_of_perm d1 d2 hperm hnodup
  simp [jsonDumpsSorted, this]

/-- Witness for the C6 theorem: two insertion orders of the same data and two
different build clocks give the same artifact bytes. -/
theorem store_gz_deterministic_witness :
    storeCacheToFile "cid_xref.json.gz" 0 [("b", "1"), ("a", "2")]
      = storeCacheToFile "cid_xref.json.gz" 123456789 [("a", "2"), ("b", "1")] :=
  store_gz_deterministic "cid_xref.json.gz" 0 123456789
    [("b", "1"), ("a", "2")] [("a", "2"), ("b", "1")]
    (by decide) (by decide) (by decide)

/-! Claim C7: the two-row cross-reference scenario. -/

/-- Claim C7, confirmed.  On the two-row input
`deprecated:MNXM99 / MNXM1` then `chebi:123 / MNXM1`, the deprecated-id
parser returns exactly the one-entry mapping MNXM99 -> MNXM1, and the xref
parser returns the dictionary whose entry for MNXM1 holds
mnx -> [MNXM99] (the deprecated namespace folded into mnx) and
chebi -> ["123"], together with the reverse entries mnx/chebi mapping the
foreign ids back to MNXM1. -/
theorem xref_two_row_scenario :
    deprecatedMNX [("deprecated:MNXM99", "MNXM1"), ("chebi:123", "MNXM1")]
      = [("MNXM99", "MNXM1")]
    ∧ mMnxmXref [("deprecated:MNXM99", "MNXM1"), ("chebi:123", "MNXM1")]
      = .ok [("MNXM1", [("mnx", .fwd ["MNXM99"]), ("chebi", .fwd ["123"])]),
             ("mnx", [("MNXM99", .rev "MNXM1")]),
             ("chebi", [("123", .rev "MNXM1")])] := by
  exact ⟨by decide, by rfl⟩

/-! Lemmas about the rule-links parser loop. -/

theorem withDir_self (l : RRLink) : withDir l l.rel_direction = l := rfl

theorem withDir_withDir (l : RRLink) (d d' : Int) :
    withDir (withDir l d) d' = withDir l d' := rfl

theorem lookup2_nil (t r : String) : lookup2 ([] : RRState) t r = none := rfl

theorem lookup2_insert2 (s : RRState) (tk : String)
    (inner : List (String × RRLink)) (_hinner : (lookupA s tk).getD [] = inner)
    (rk : String) (x : RRLink) (t r : String) :
    lookup2 (insertOW s tk (insertOW inner rk x)) t r
      = if tk = t then
          (if rk = r then some x else lookupA inner r)
        else lookup2 s t r := by
  by_cases ht : tk = t
  · subst ht
    simp only [lookup2, lookupA_insertOW_same, Option.bind, if_pos rfl]
    by_cases hr : rk = r
    · subst hr
      simp [lookupA_insertOW_same]
    · simp [lookupA_insertOW_ne _ _ _ _ hr, hr]
  · simp only [lookup2, lookupA_insertOW_ne _ _ _ _ ht, if_neg ht]

/-- A step on a row with a different (rule, reaction) pair leaves the entry
for the pair untouched. -/
theorem stepRR_other (s : RRState) (row : RRRow) (s' : RRState)
    (hstep : stepRR s row = .ok s') (t r : String)
    (hne : isPair t r row = false) :
    lookup2 s' t r = lookup2 s t r := by
  have hpair : ¬ (row.template_id = t ∧ row.reaction_id = r) := by
    intro ⟨h1, h2⟩
    simp [isPair, h1, h2] at hne
  unfold stepRR at hstep
  have haux : ∀ x : RRLink,
      lookup2 (insertOW s row.template_id
        (insertOW ((lookupA s row.template_id).getD []) row.reaction_id x)) t r
        = lookup2 s t r := by
    intro x
    rw [lookup2_insert2 s row.template_id _ rfl row.reaction_id x t r]
    by_cases ht : row.template_id = t
    · by_cases hr : row.reaction_id = r
      · exact absurd ⟨ht, hr⟩ hpair
      · subst ht
        simp only [if_pos rfl, if_neg hr]
        cases hS : lookupA s row.template_id with
        | none => simp [lookup2, hS, lookupA]
        | some i => simp [lookup2, hS]
    · simp [ht]
  cases hI : lookupA ((lookupA s row.template_id).getD [])
      row.reaction_id with
  | none =>
    rw [hI] at hstep
    simp only [] at hstep
    cases hq : parseDecimal row.score with
    | none => rw [hq] at hstep; exact absurd hstep (by simp)
    | some q =>
      rw [hq] at hstep
      simp only [Except.ok.injEq] at hstep
      subst hstep
      exact haux _
  | some l =>
    rw [hI] at hstep
    simp only [] at hstep
    by_cases hcond : (l.rel_direction ≠ 0 ∧ dirVal row ≠ l.rel_direction)
    · rw [if_pos hcond] at hstep
      simp only [Except.ok.injEq] at hstep
      subst hstep
      exact haux _
    · rw [if_neg hcond] at hstep
      simp only [Except.ok.injEq] at hstep
      subst hstep
      rfl

/-- A step on a row whose pair is not yet stored parses the score and stores
the link built from the row. -/
theorem stepRR_match_none (s : RRState) (row : RRRow) (s' : RRState)
    (hstep : stepRR s row = .ok s') (t r : String)
    (ht : row.template_id = t) (hr : row.reaction_id = r)
    (hnone : lookup2 s t r = none) :
    ∃ q, parseDecimal row.score = some q
      ∧ lookup2 s' t r = some (mkRRLink row q) := by
  unfold stepRR at hstep
  have hI : lookupA ((lookupA s row.template_id).getD [])
      row.reaction_id = none := by
    cases hS : lookupA s row.template_id with
    | none => simp [hS, lookupA]
    | some i =>
      have heq : lookup2 s t r = lookupA i r := by
        rw [← ht] at hnone ⊢
        simp [lookup2, hS]
      simp only [Option.getD_some]
      rw [hr]
      rw [heq] at hnone
      exact hnone
  rw [hI] at hstep
  simp only [] at hstep
  cases hq : parseDecimal row.score with
  | none => rw [hq] at hstep; exact absurd hstep (by simp)
  | some q =>
    rw [hq] at hstep
    simp only [Except.ok.injEq] at hstep
    subst hstep
    refine ⟨q, rfl, ?_⟩
    rw [lookup2_insert2 s row.template_id _ rfl row.reaction_id
      (mkRRLink row q) t r]
    simp [ht, hr]

/-- A step on a row whose pair is already stored succeeds unconditionally and
only possibly degrades the stored direction to 0; every other field is kept
verbatim. -/
theorem stepRR_match_some (s : RRState) (row : RRRow) (l : RRLink)
    (t r : String) (ht : row.template_id = t) (hr : row.reaction_id = r)
    (hsome : lookup2 s t r = some l) :
    stepRR s row
      = .ok (if l.rel_direction ≠ 0 ∧ dirVal row ≠ l.rel_direction then
          insertOW s row.template_id
            (insertOW ((lookupA s row.template_id).getD []) row.reaction_id
              (withDir l 0))
        else s) := by
  unfold stepRR
  have hI : lookupA ((lookupA s row.template_id).getD [])
      row.reaction_id = some l := by
    cases hS : lookupA s row.template_id with
    | none =>
      rw [← ht] at hsome
      simp [lookup2, hS] at hsome
    | some i =>
      have heq : lookup2 s t r = lookupA i r := by
        rw [← ht] at hsome ⊢
        simp [lookup2, hS]
      simp only [Option.getD_some]
      rw [hr, ← heq, hsome]
  rw [hI]
  simp only []
  by_cases hcond : (l.rel_direction ≠ 0 ∧ dirVal row ≠ l.rel_direction)
  · rw [if_pos hcond, if_pos hcond]; rfl
  · rw [if_neg hcond, if_neg hcond]

/-- Direction evolution of one step on a row carrying the pair. -/
theorem stepRR_dir (s : RRState) (row : RRRow) (s' : RRState)
    (hstep : stepRR s row = .ok s') (t r : String)
    (ht : row.template_id = t) (hr : row.reaction_id = r) :
    dirOf s' t r = dstep (dirOf s t r) (dirVal row) := by
  cases hcur : lookup2 s t r with
  | none =>
    obtain ⟨q, _, hlook⟩ := stepRR_match_none s row s' hstep t r ht hr hcur
    simp [dirOf, hcur, hlook, dstep, mkRRLink]
  | some l =>
    have := stepRR_match_some s row l t r ht hr hcur
    rw [this] at hstep
    simp only [Except.ok.injEq] at hstep
    subst hstep
    by_cases hcond : (l.rel_direction ≠ 0 ∧ dirVal row ≠ l.rel_direction)
    · rw [if_pos hcond]
      have hlook : lookup2 (insertOW s row.template_id
          (insertOW ((lookupA s row.template_id).getD []) row.reaction_id
            (withDir l 0))) t r = some (withDir l 0) := by
        rw [lookup2_insert2 s row.template_id _ rfl row.reaction_id
          (withDir l 0) t r]
        simp [ht, hr]
      unfold dirOf
      rw [hlook, hcur]
      simp [withDir, dstep, hcond]
    · rw [if_neg hcond]
      simp [dirOf, hcur, dstep, hcond]

/-- A step on a row whose pair is already stored never raises. -/
theorem stepRR_ok_of_dup (s : RRState) (row : RRRow)
    (hdup : (lookup2 s row.template_id row.reaction_id).isSome) :
    ∃ s', stepRR s row = .ok s' := by
  cases hcur : lookup2 s row.template_id row.reaction_id with
  | none => rw [hcur] at hdup; simp at hdup
  | some l =>
    rw [stepRR_match_some s row l row.template_id row.reaction_id rfl rfl hcur]
    exact ⟨_, rfl⟩

/-- With parseable scores every step succeeds, so the whole loop does. -/
theorem rrFold_ok (rows : List RRRow)
    (hscore : ∀ row ∈ rows, (parseDecimal row.score).isSome) :
    ∀ s : RRState, ∃ s', rrFold rows s = .ok s' := by
  induction rows with
  | nil => intro s; exact ⟨s, rfl⟩
  | cons row rest ih =>
    intro s
    have hrow : (parseDecimal row.score).isSome := hscore row (by simp)
    have hrest : ∀ r ∈ rest, (parseDecimal r.score).isSome := by
      intro r hrr; exact hscore r (by simp [hrr])
    have hstep : ∃ s1, stepRR s row = .ok s1 := by
      unfold stepRR
      cases hI : lookupA ((lookupA s row.template_id).getD [])
          row.reaction_id with
      | none =>
        simp only []
        cases hq : parseDecimal row.score with
        | none => rw [hq] at hrow; simp at hrow
        | some q => exact ⟨_, rfl⟩
      | some l =>
        simp only []
        by_cases hcond : (l.rel_direction ≠ 0 ∧ dirVal row ≠ l.rel_direction)
        · rw [if_pos hcond]; exact ⟨_, rfl⟩
        · rw [if_neg hcond]; exact ⟨_, rfl⟩
    obtain ⟨s1, hs1⟩ := hstep
    obtain ⟨s', hs'⟩ := ih hrest s1
    exact ⟨s', by simp [rrFold, hs1, hs']⟩

/-- The stored direction after the loop is the `dstep`-fold of the directions
of the rows carrying the pair. -/
theorem rrFold_dirOf (rows : List RRRow) :
    ∀ s s' : RRState, rrFold rows s = .ok s' → ∀ t r : String,
      dirOf s' t r = (pairDirs rows t r).foldl dstep (dirOf s t r) := by
  induction rows with
  | nil =>
    intro s s' h t r
    simp only [rrFold, Except.ok.injEq] at h
    subst h
    rfl
  | cons row rest ih =>
    intro s s' h t r
    unfold rrFold at h
    cases hstep : stepRR s row with
    | error e => rw [hstep] at h; exact absurd h (by simp)
    | ok s1 =>
      rw [hstep] at h
      have hrest := ih s1 s' h t r
      by_cases hp : isPair t r row = true
      · have ht : row.template_id = t := by
          simp [isPair] at hp; exact hp.1
        have hr : row.reaction_id = r := by
          simp [isPair] at hp; exact hp.2
        have hdir := stepRR_dir s row s1 hstep t r ht hr
        have hfilter : pairDirs (row :: rest) t r
            = dirVal row :: pairDirs rest t r := by
          simp [pairDirs, List.filter, hp]
        rw [hfilter, List.foldl_cons, ← hdir, hrest]
      · have hne : isPair t r row = false := by
          cases hi : isPair t r row
          · rfl
          · exact absurd hi hp
        have hfilter : pairDirs (row :: rest) t r = pairDirs rest t r := by
          simp [pairDirs, List.filter, hne]
        have hsame : lookup2 s1 t r = lookup2 s t r :=
          stepRR_other s row s1 hstep t r hne
        rw [hfilter, hrest]
        simp [dirOf, hsame]

/-- A stored direction 0 is absorbing under `dstep`. -/
theorem foldl_dstep_zero (ds : List Int) :
    ds.foldl dstep (some 0) = some 0 := by
  induction ds with
  | nil => rfl
  | cons d t ih =>
    have : dstep (some 0) d = some 0 := by simp [dstep]
    rw [List.foldl_cons, this, ih]

/-- Starting from a nonzero direction, any later conflicting direction
degrades the fold to 0. -/
theorem foldl_dstep_conflict (ds : List Int) :
    ∀ c : Int, (c = 1 ∨ c = -1) → (∀ d ∈ ds, d = 1 ∨ d = -1) →
      (∃ d ∈ ds, d ≠ c) → ds.foldl dstep (some c) = some 0 := by
  induction ds with
  | nil =>
    intro c _ _ hex
    obtain ⟨d, hd, _⟩ := hex
    exact absurd hd (by simp)
  | cons d t ih =>
    intro c hc hall hex
    have hc0 : c ≠ 0 := by
      rcases hc with h | h <;> simp [h]
    by_cases hdc : d = c
    · subst hdc
      have hstep : dstep (some d) d = some d := by simp [dstep]
      rw [List.foldl_cons, hstep]
      obtain ⟨d', hd', hne⟩ := hex
      rcases List.mem_cons.mp hd' with h | h
      · exact absurd h.symm (Ne.symm hne)
      · exact ih d hc (fun x hx => hall x (by simp [hx])) ⟨d', h, hne⟩
    · have hstep : dstep (some c) d = some 0 := by
        simp [dstep, hc0, hdc]
      rw [List.foldl_cons, hstep, foldl_dstep_zero]

/-- When the pair directions contain both 1 and -1 the fold lands on 0. -/
theorem foldl_dstep_main (ds : List Int)
    (hall : ∀ d ∈ ds, d = 1 ∨ d = -1) (h1 : (1 : Int) ∈ ds)
    (h2 : (-1 : Int) ∈ ds) : ds.foldl dstep none = some 0 := by
  cases ds with
  | nil => exact absurd h1 (by simp)
  | cons d t =>
    have hstep : dstep none d = some d := by simp [dstep]
    rw [List.foldl_cons, hstep]
    have hd : d = 1 ∨ d = -1 := hall d (by simp)
    have hex : ∃ d' ∈ t, d' ≠ d := by
      rcases hd with h | h
      · subst h
        rcases List.mem_cons.mp h2 with hh | hh
        · exact absurd hh.symm (by norm_num)
        · exact ⟨-1, hh, by norm_num⟩
      · subst h
        rcases List.mem_cons.mp h1 with hh | hh
        · exact absurd hh.symm (by norm_num)
        · exact ⟨1, hh, by norm_num⟩
    exact foldl_dstep_conflict t d hd
      (fun x hx => hall x (by simp [hx])) hex

/-! Claim C4: direction conflicts on duplicate (rule, reaction) rows. -/

/-- Claim C4, confirmed.  For any rule-links input whose scores are parseable
(the parser calls `float` on the first row of each pair and would raise on an
unparseable score irrespective of duplicates), if some rows share the pair
(t, r) with at least one "L2R" row and at least one row with a different
direction value, the parser completes without raising — duplicate rows never
touch `float` at all — and the map stores for (t, r) a single link (dict
semantics: one value per key) whose `rel_direction` is 0. -/
theorem rr_reactions_conflict_dir_zero
    (rows : List RRRow) (t r : String)
    (hscore : ∀ row ∈ rows, (parseDecimal row.score).isSome)
    (hfwd : ∃ row ∈ rows, isPair t r row = true ∧ row.direction = "L2R")
    (hbwd : ∃ row ∈ rows, isPair t r row = true ∧ row.direction ≠ "L2R") :
    ∃ m, mRRReactions rows = .ok m
      ∧ ∃ l, lookup2 m t r = some l ∧ l.rel_direction = 0 := by
  obtain ⟨m, hm⟩ := rrFold_ok rows hscore []
  refine ⟨m, hm, ?_⟩
  have hdir := rrFold_dirOf rows [] m hm t r
  have hnil : dirOf ([] : RRState) t r = none := rfl
  rw [hnil] at hdir
  have hall : ∀ d ∈ pairDirs rows t r, d = 1 ∨ d = -1 := by
    intro d hd
    simp only [pairDirs, List.mem_map] at hd
    obtain ⟨row, _, hrow⟩ := hd
    rw [← hrow]
    unfold dirVal
    by_cases hL : row.direction = "L2R" <;> simp [hL]
  have h1 : (1 : Int) ∈ pairDirs rows t r := by
    obtain ⟨row, hrow, hp, hL⟩ := hfwd
    have hv : dirVal row = 1 := by simp [dirVal, hL]
    rw [← hv]
    exact List.mem_map_of_mem _ (List.mem_filter.mpr ⟨hrow, hp⟩)
  have h2 : (-1 : Int) ∈ pairDirs rows t r := by
    obtain ⟨row, hrow, hp, hL⟩ := hbwd
    have hv : dirVal row = -1 := by simp [dirVal, hL]
    rw [← hv]
    exact List.mem_map_of_mem _ (List.mem_filter.mpr ⟨hrow, hp⟩)
  have hdm : dirOf m t r = some 0 := by
    rw [hdir]
    exact foldl_dstep_main _ hall h1 h2
  cases hl : lookup2 m t r with
  | none =>
    have hdn : dirOf m t r = none := by
      unfold dirOf
      rw [hl]
      rfl
    rw [hdn] at hdm
    exact absurd hdm (by simp)
  | some l =>
    have hds : dirOf m t r = some l.rel_direction := by
      unfold dirOf
      rw [hl]
      rfl
    rw [hds] at hdm
    simp only [Option.some.injEq] at hdm
    exact ⟨l, rfl, hdm⟩

/-- Witness for the C4 theorem: the end-to-end scenario of the claim, one
"L2R" row and one "R2L" row for the pair (R1, RX1). -/
theorem rr_reactions_conflict_dir_zero_witness :
    ∃ m, mRRReactions
        [⟨"R1", "RX1", "L2R", "0.5", "S1", "P1.P2", "", ""⟩,
         ⟨"R1", "RX1", "R2L", "0.9", "S2", "P3", "E1", ""⟩] = .ok m
      ∧ ∃ l, lookup2 m "R1" "RX1" = some l ∧ l.rel_direction = 0 :=
  rr_reactions_conflict_dir_zero
    [⟨"R1", "RX1", "L2R", "0.5", "S1", "P1.P2", "", ""⟩,
     ⟨"R1", "RX1", "R2L", "0.9", "S2", "P3", "E1", ""⟩]
    "R1" "RX1" (by decide) (by decide) (by decide)

/-! Claim C9: duplicate rows only touch the direction field. -/

/-- Frame preservation of the whole loop: an already-stored link only ever
changes in its `rel_direction` field, and a link first created from a row is
that row's link up to later direction changes. -/
theorem rrFold_frame (rows : List RRRow) :
    ∀ s s' : RRState, rrFold rows s = .ok s' → ∀ t r : String,
      (∀ l, lookup2 s t r = some l →
        ∃ l', lookup2 s' t r = some l' ∧ l' = withDir l l'.rel_direction)
      ∧ (lookup2 s t r = none →
          (firstPairRow rows t r = none → lookup2 s' t r = none)
          ∧ ∀ row0, firstPairRow rows t r = some row0 →
              ∃ q l', parseDecimal row0.score = some q
                ∧ lookup2 s' t r = some l'
                ∧ l' = withDir (mkRRLink row0 q) l'.rel_direction) := by
  induction rows with
  | nil =>
    intro s s' h t r
    simp only [rrFold, Except.ok.injEq] at h
    subst h
    constructor
    · intro l hl
      exact ⟨l, hl, (withDir_self l).symm⟩
    · intro hnone
      refine ⟨fun _ => hnone, ?_⟩
      intro row0 h0
      exact absurd h0 (by simp [firstPairRow])
  | cons row rest ih =>
    intro s s' h t r
    unfold rrFold at h
    cases hstep : stepRR s row with
    | error e => rw [hstep] at h; exact absurd h (by simp)
    | ok s1 =>
      rw [hstep] at h
      have IH := ih s1 s' h t r
      by_cases hp : isPair t r row = true
      · have ht : row.template_id = t := by
          simp [isPair] at hp; exact hp.1
        have hr : row.reaction_id = r := by
          simp [isPair] at hp; exact hp.2
        constructor
        · intro l hl
          have hshape := stepRR_match_some s row l t r ht hr hl
          rw [hshape] at hstep
          simp only [Except.ok.injEq] at hstep
          by_cases hcond : (l.rel_direction ≠ 0 ∧ dirVal row ≠ l.rel_direction)
          · rw [if_pos hcond] at hstep
            have hlook : lookup2 s1 t r = some (withDir l 0) := by
              rw [← hstep]
              rw [lookup2_insert2 s row.template_id _ rfl row.reaction_id
                (withDir l 0) t r]
              simp [ht, hr]
            obtain ⟨l', hl', heq⟩ := IH.1 (withDir l 0) hlook
            refine ⟨l', hl', ?_⟩
            rw [heq, withDir_withDir]
            rfl
          · rw [if_neg hcond] at hstep
            subst hstep
            exact IH.1 l hl
        · intro hnone
          obtain ⟨q, hq, hlook⟩ :=
            stepRR_match_none s row s1 hstep t r ht hr hnone
          have hfirst : firstPairRow (row :: rest) t r = some row := by
            unfold firstPairRow
            rw [List.find?_cons_of_pos _ hp]
          constructor
          · intro h0
            rw [hfirst] at h0
            exact absurd h0 (by simp)
          · intro row0 h0
            rw [hfirst] at h0
            have hrow0 : row0 = row := by injection h0 with h0; exact h0.symm
            subst hrow0
            obtain ⟨l', hl', heq⟩ := IH.1 (mkRRLink row0 q) hlook
            exact ⟨q, l', hq, hl', heq⟩
      · have hne : isPair t r row = false := by
          cases hi : isPair t r row
          · rfl
          · exact absurd hi hp
        have hsame : lookup2 s1 t r = lookup2 s t r :=
          stepRR_other s row s1 hstep t r hne
        have hfirst : firstPairRow (row :: rest) t r = firstPairRow rest t r := by
          unfold firstPairRow
          rw [List.find?_cons_of_neg _ (by simp [hne])]
        constructor
        · intro l hl
          exact IH.1 l (by rw [hsame]; exact hl)
        · intro hnone
          rw [hfirst]
          exact IH.2 (by rw [hsame]; exact hnone)

/-- Claim C9, confirmed.  Every link stored by the new-schema rule-links
parser carries, in all fields except `rel_direction`, exactly the values
computed from the first input row seen for its (rule, reaction) pair: later
duplicate rows can only have changed the direction. -/
theorem rr_reactions_first_row_frame
    (rows : List RRRow) (t r : String) (m : RRState) (l : RRLink)
    (hok : mRRReactions rows = .ok m) (hl : lookup2 m t r = some l) :
    ∃ row0 q, firstPairRow rows t r = some row0
      ∧ parseDecimal row0.score = some q
      ∧ l = withDir (mkRRLink row0 q) l.rel_direction := by
  have hframe := rrFold_frame rows [] m hok t r
  have hnil : lookup2 ([] : RRState) t r = none := rfl
  obtain ⟨habs, hsome⟩ := hframe.2 hnil
  cases h0 : firstPairRow rows t r with
  | none =>
    rw [habs h0] at hl
    exact absurd hl (by simp)
  | some row0 =>
    obtain ⟨q, l', hq, hl', heq⟩ := hsome row0 h0
    rw [hl'] at hl
    have : l' = l := by injection hl
    subst this
    exact ⟨row0, q, rfl, hq, heq⟩

/-- Witness for the C9 theorem: two rows with the same pair; the stored link
keeps the first row's score, substrate, sides and exclusion lists while its
direction was degraded to 0 by the second row. -/
theorem rr_reactions_first_row_frame_witness :
    ∃ row0 q,
      firstPairRow
        [⟨"R1", "RX1", "L2R", "1", "S1", "P1.P2", "", ""⟩,
         ⟨"R1", "RX1", "R2L", "0", "S2", "P3", "E1", ""⟩] "R1" "RX1" = some row0
      ∧ parseDecimal row0.score = some q
      ∧ ({ rule_id := "R1", rule_score := 1, reac_id := "RX1", subs_id := "S1",
           rel_direction := 0, left := [("S1", 1)],
           right := [("P1", 1), ("P2", 1)], left_excluded := [],
           right_excluded := [] } : RRLink)
        = withDir (mkRRLink row0 q)
            ({ rule_id := "R1", rule_score := 1, reac_id := "RX1",
               subs_id := "S1", rel_direction := 0, left := [("S1", 1)],
               right := [("P1", 1), ("P2", 1)], left_excluded := [],
               right_excluded := [] } : RRLink).rel_direction :=
  rr_reactions_first_row_frame
    [⟨"R1", "RX1", "L2R", "1", "S1", "P1.P2", "", ""⟩,
     ⟨"R1", "RX1", "R2L", "0", "S2", "P3", "E1", ""⟩]
    "R1" "RX1"
    [("R1", [("RX1",
      { rule_id := "R1", rule_score := 1, reac_id := "RX1", subs_id := "S1",
        rel_direction := 0, left := [("S1", 1)],
        right := [("P1", 1), ("P2", 1)], left_excluded := [],
        right_excluded := [] })])]
    { rule_id := "R1", rule_score := 1, reac_id := "RX1", subs_id := "S1",
      rel_direction := 0, left := [("S1", 1)],
      right := [("P1", 1), ("P2", 1)], left_excluded := [],
      right_excluded := [] }
    (by rfl) (by rfl)

/-! Claim C8: malformed equation split is skip-and-continue. -/

/-- Claim C8, confirmed.  (1) Any equation that does not split on `=` into
exactly two sides — zero separators as in "A + B", or two as in "A = B = C" —
is rejected by `_read_equation` before any tokenizing; (2) the row loop of
the legacy template-reaction parser maps such a row to the identity on its
accumulator, i.e. the single reaction is skipped without raising and the
remaining rows are processed as if the bad row were absent; (3) when every
row carrying a reaction id fails the equation parse, that id is absent from
the returned mapping. -/
theorem template_equation_split_skip :
    (∀ eq rid : String, (pySplit '=' eq).length ≠ 2 →
      readEquation eq rid = none)
    ∧ (∀ (acc : List (String × TemplateRxn)) (row : TRow),
        readEquation row.eq row.rid = none →
        stepTemplate acc row = acc)
    ∧ (∀ (rows : List TRow) (rid : String),
        (∀ row ∈ rows, row.rid = rid → readEquation row.eq row.rid = none) →
        lookupA (mTemplateReactionsLegacy rows) rid = none) := by
  have part1 : ∀ eq rid : String, (pySplit '=' eq).length ≠ 2 →
      readEquation eq rid = none := by
    intro eq rid h
    unfold readEquation
    rw [if_neg h]
  have part2 : ∀ (acc : List (String × TemplateRxn)) (row : TRow),
      readEquation row.eq row.rid = none → stepTemplate acc row = acc := by
    intro acc row h
    unfold stepTemplate
    rw [h]
  have key : ∀ (rows : List TRow) (acc : List (String × TemplateRxn))
      (rid : String), lookupA acc rid = none →
      (∀ row ∈ rows, row.rid = rid → readEquation row.eq row.rid = none) →
      lookupA (rows.foldl stepTemplate acc) rid = none := by
    intro rows
    induction rows with
    | nil => intro acc rid hacc _; exact hacc
    | cons row rest ih =>
      intro acc rid hacc hall
      have hrest : ∀ row' ∈ rest, row'.rid = rid →
          readEquation row'.eq row'.rid = none := by
        intro row' hm hr
        exact hall row' (by simp [hm]) hr
      rw [List.foldl_cons]
      cases hEq : readEquation row.eq row.rid with
      | none =>
        rw [part2 acc row hEq]
        exact ih acc rid hacc hrest
      | some rxn =>
        have hne : row.rid ≠ rid := by
          intro hcontra
          rw [hall row (by simp) hcontra] at hEq
          exact absurd hEq (by simp)
        cases hDir : readDirection row.dir with
        | none =>
          have hstep : stepTemplate acc row = acc := by
            unfold stepTemplate
            rw [hEq, hDir]
          rw [hstep]
          exact ih acc rid hacc hrest
        | some d =>
          have hstep : stepTemplate acc row
              = insertOW acc row.rid
                  ⟨rxn.left, rxn.right, d, pySplit ',' row.mainLeft,
                    pySplit ',' row.mainRight⟩ := by
            unfold stepTemplate
            rw [hEq, hDir]
          rw [hstep]
          exact ih _ rid
            (by rw [lookupA_insertOW_ne _ _ _ _ hne]; exact hacc) hrest
  exact ⟨part1, part2, fun rows rid hall => key rows [] rid rfl hall⟩

/-- Witness for the C8 theorem at the two malformed equations of the claim:
"A + B" (no separator) and "A = B = C" (two separators) are rejected, the
row is a no-op on the accumulator, and a reaction id all of whose rows are
malformed is absent from the parse of a mixed input. -/
theorem template_equation_split_skip_witness :
    readEquation "A + B" "RX1" = none
    ∧ readEquation "A = B = C" "RX1" = none
    ∧ stepTemplate [] ⟨"RX1", "A = B = C", "1", "M", "M"⟩ = []
    ∧ lookupA (mTemplateReactionsLegacy
        [⟨"RX1", "A + B", "1", "M", "M"⟩,
         ⟨"RX2", "1 A = 1 B", "1", "A", "B"⟩]) "RX1" = none :=
  ⟨template_equation_split_skip.1 "A + B" "RX1" (by decide),
   template_equation_split_skip.1 "A = B = C" "RX1" (by decide),
   template_equation_split_skip.2.1 [] ⟨"RX1", "A = B = C", "1", "M", "M"⟩
     (by decide),
   template_equation_split_skip.2.2
     [⟨"RX1", "A + B", "1", "M", "M"⟩, ⟨"RX2", "1 A = 1 B", "1", "A", "B"⟩]
     "RX1" (by decide)⟩

/-! Claim C10: one dictionary serving as forward and reverse index. -/

theorem lookupA_xrefAcc1_isSome (acc : Xref) (mnx k : String)
    (h : (lookupA acc k).isSome) :
    (lookupA (xrefAcc1 acc mnx) k).isSome := by
  unfold xrefAcc1
  by_cases hc : (lookupA acc mnx).isNone
  · rw [if_pos hc]
    exact lookupA_insertOW_isSome acc mnx [] k h
  · rw [if_neg hc]
    exact h

theorem lookupA_xrefAcc1_mnx (acc : Xref) (mnx : String) :
    (lookupA (xrefAcc1 acc mnx) mnx).isSome := by
  unfold xrefAcc1
  by_cases hc : (lookupA acc mnx).isNone
  · rw [if_pos hc, lookupA_insertOW_same]
    rfl
  · rw [if_neg hc]
    rw [Option.isNone_iff_eq_none] at hc
    cases h : lookupA acc mnx with
    | none => exact absurd h hc
    | some v => rfl

theorem lookupA_xrefProceed_isSome (acc1 : Xref) (mnx dbName dbId k : String)
    (inner2 : List (String × XEntry)) (h : (lookupA acc1 k).isSome) :
    (lookupA (xrefProceed acc1 mnx dbName dbId inner2) k).isSome := by
  unfold xrefProceed
  apply lookupA_insertOW_isSome
  by_cases hc : (lookupA (insertOW acc1 mnx inner2) dbName).isNone
  · rw [if_pos hc]
    apply lookupA_insertOW_isSome
    exact lookupA_insertOW_isSome acc1 mnx inner2 k h
  · rw [if_neg hc]
    exact lookupA_insertOW_isSome acc1 mnx inner2 k h

theorem lookupA_xrefProceed_dbName (acc1 : Xref) (mnx dbName dbId : String)
    (inner2 : List (String × XEntry)) :
    (lookupA (xrefProceed acc1 mnx dbName dbId inner2) dbName).isSome := by
  unfold xrefProceed
  rw [lookupA_insertOW_same]
  rfl

theorem lookupA_xrefProceed_mnx (acc1 : Xref) (mnx dbName dbId : String)
    (inner2 : List (String × XEntry)) :
    (lookupA (xrefProceed acc1 mnx dbName dbId inner2) mnx).isSome := by
  unfold xrefProceed
  apply lookupA_insertOW_isSome
  by_cases hc : (lookupA (insertOW acc1 mnx inner2) dbName).isNone
  · rw [if_pos hc]
    apply lookupA_insertOW_isSome
    rw [lookupA_insertOW_same]
    rfl
  · rw [if_neg hc]
    rw [lookupA_insertOW_same]
    rfl

/-- A successful non-comment step produces a `xrefProceed` state. -/
theorem stepXref_ok_shape (acc : Xref) (row : String × String) (acc' : Xref)
    (h : stepXref acc row = .ok acc') (hc : isComment row.1 = false) :
    ∃ inner2, acc'
      = xrefProceed (xrefAcc1 acc row.2) row.2 (dbNameOf row.1)
          (dbIdOf row.1) inner2 := by
  unfold stepXref at h
  rw [hc] at h
  simp only [Bool.false_eq_true, if_false] at h
  cases hm : lookupA (xrefInner1 (xrefAcc1 acc row.2) row.2 (dbNameOf row.1))
      (dbNameOf row.1) with
  | none => rw [hm] at h; exact absurd h (by simp)
  | some e =>
    rw [hm] at h
    cases e with
    | fwd ids =>
      simp only [Except.ok.injEq] at h
      exact ⟨_, h.symm⟩
    | rev s =>
      simp only [] at h
      by_cases hsub : containsSub (dbIdOf row.1).data s.data = true
      · rw [if_pos hsub] at h
        simp only [Except.ok.injEq] at h
        exact ⟨_, h.symm⟩
      · rw [if_neg hsub] at h
        exact absurd h (by simp)

/-- A step preserves every key already present. -/
theorem stepXref_preserves (acc : Xref) (row : String × String) (acc' : Xref)
    (h : stepXref acc row = .ok acc') (k : String)
    (hk : (lookupA acc k).isSome) : (lookupA acc' k).isSome := by
  by_cases hc : isComment row.1 = true
  · unfold stepXref at h
    rw [hc] at h
    simp only [if_true, Except.ok.injEq] at h
    subst h
    exact hk
  · have hc' : isComment row.1 = false := by
      cases hi : isComment row.1
      · rfl
      · exact absurd hi hc
    obtain ⟨inner2, hshape⟩ := stepXref_ok_shape acc row acc' h hc'
    subst hshape
    exact lookupA_xrefProceed_isSome _ _ _ _ _ _
      (lookupA_xrefAcc1_isSome acc row.2 k hk)

/-- A successful non-comment step makes both the internal id and the database
name keys of the dictionary. -/
theorem stepXref_adds (acc : Xref) (row : String × String) (acc' : Xref)
    (h : stepXref acc row = .ok acc') (hc : isComment row.1 = false) :
    (lookupA acc' row.2).isSome ∧ (lookupA acc' (dbNameOf row.1)).isSome := by
  obtain ⟨inner2, hshape⟩ := stepXref_ok_shape acc row acc' h hc
  subst hshape
  exact ⟨lookupA_xrefProceed_mnx _ _ _ _ _,
    lookupA_xrefProceed_dbName _ _ _ _ _⟩

/-- The loop preserves every key present in the accumulator. -/
theorem xrefFold_preserves (rows : List (String × String)) :
    ∀ acc acc' : Xref, xrefFold rows acc = .ok acc' → ∀ k : String,
      (lookupA acc k).isSome → (lookupA acc' k).isSome := by
  induction rows with
  | nil =>
    intro acc acc' h k hk
    simp only [xrefFold, Except.ok.injEq] at h
    subst h
    exact hk
  | cons row rest ih =>
    intro acc acc' h k hk
    unfold xrefFold at h
    cases hstep : stepXref acc row with
    | error e => rw [hstep] at h; exact absurd h (by simp)
    | ok acc1 =>
      rw [hstep] at h
      exact ih acc1 acc' h k (stepXref_preserves acc row acc1 hstep k hk)

/-- Both keys contributed by any processed data row survive to the end of the
loop. -/
theorem xrefFold_mem (rows : List (String × String)) :
    ∀ acc acc' : Xref, xrefFold rows acc = .ok acc' →
      ∀ row ∈ rows, isComment row.1 = false →
        (lookupA acc' row.2).isSome
        ∧ (lookupA acc' (dbNameOf row.1)).isSome := by
  induction rows with
  | nil =>
    intro acc acc' _ row hm
    exact absurd hm (by simp)
  | cons hd rest ih =>
    intro acc acc' h row hm hc
    unfold xrefFold at h
    cases hstep : stepXref acc hd with
    | error e => rw [hstep] at h; exact absurd h (by simp)
    | ok acc1 =>
      rw [hstep] at h
      rcases List.mem_cons.mp hm with hrow | hrow
      · subst hrow
        obtain ⟨h1, h2⟩ := stepXref_adds acc row acc1 hstep hc
        exact ⟨xrefFold_preserves rest acc1 acc' h row.2 h1,
          xrefFold_preserves rest acc1 acc' h (dbNameOf row.1) h2⟩
      · exact ih acc1 acc' h row hrow hc

/-- Claim C10, confirmed.  The chemical cross-reference parser returns one
single dictionary that serves as forward and reverse index at once: for every
processed (non-comment) data row, the result — when the parse completes —
holds both an entry under the internal id of the row (mapping database names
to foreign-id lists) and an entry under the database name of the row (mapping
foreign ids back to internal ids), so internal compound ids and database
names share the key space of the one returned mapping. -/
theorem xref_single_dict_bidirectional
    (rows : List (String × String)) (x : Xref)
    (hok : mMnxmXref rows = .ok x) (row : String × String)
    (hrow : row ∈ rows) (hc : isComment row.1 = false) :
    (lookupA x row.2).isSome ∧ (lookupA x (dbNameOf row.1)).isSome :=
  xrefFold_mem rows [] x hok row hrow hc

/-- Witness for the C10 theorem at a concrete one-row input. -/
theorem xref_single_dict_bidirectional_witness :
    (lookupA [("MNXM7", [("chebi", XEntry.fwd ["999"])]),
              ("chebi", [("999", XEntry.rev "MNXM7")])] "MNXM7").isSome
    ∧ (lookupA [("MNXM7", [("chebi", XEntry.fwd ["999"])]),
                ("chebi", [("999", XEntry.rev "MNXM7")])]
        (dbNameOf "chebi:999")).isSome :=
  xref_single_dict_bidirectional [("chebi:999", "MNXM7")]
    [("MNXM7", [("chebi", XEntry.fwd ["999"])]),
     ("chebi", [("999", XEntry.rev "MNXM7")])]
    (by rfl) ("chebi:999", "MNXM7") (by decide) (by decide)

end RRCache
